import Mathlib

/-!
Verification of the nighty-mcp product formatter.

The Python sources (product_formatter.py, goshippro_formatter.py,
logging_helper.py) are shallowly embedded below.  Python strings are
modelled as Lean `String` (lists of unicode code points, which matches
CPython semantics), the regular-expression searches are hand-translated
into scanners that implement the exact leftmost-match semantics of each
concrete pattern used by the source, and Python exceptions (IndexError
from `split(":", 1)[1]` and from list indexing) are modelled with
`Except String`.
-/

set_option maxRecDepth 100000

namespace NightyMcp

/-- ASCII whitespace stripped by Python `str.strip` and matched by the regex
class of whitespace characters. -/
def isPyWs (c : Char) : Bool :=
  c = ' ' || c = '\t' || c = '\n' || c = '\x0d' || c = '\x0b' || c = '\x0c'

/-- Word characters of Python `re` (ASCII): letters, digits and underscore. -/
def isWordChar (c : Char) : Bool :=
  c.isAlphanum || c = '_'

/-- A position is at a word boundary before a word character when the previous
character (if any) is not a word character. -/
def boundaryBefore (prev : Option Char) : Bool :=
  match prev with
  | none => true
  | some c => !isWordChar c

/-- Word boundary after a word character: next character absent or non-word. -/
def boundaryAfter : List Char → Bool
  | [] => true
  | c :: _ => !isWordChar c

/-- Currency symbols appearing in the price regexes. -/
def isCurrency (c : Char) : Bool :=
  c = '$' || c = '€' || c = '£'

def isDigitOrDot (c : Char) : Bool :=
  c.isDigit || c = '.'

/-- Lower-case an ASCII letter (for the case-insensitive regex flags). -/
def lowChar (c : Char) : Char := c.toLower

/-- Case-insensitive character equality (ASCII, as in Python `re.I`). -/
def ciEq (a b : Char) : Bool := lowChar a = lowChar b

/-- Does the list start with the given pattern (case-sensitive)? -/
def startsWithL : List Char → List Char → Bool
  | _, [] => true
  | [], _ :: _ => false
  | c :: cs, p :: ps => c = p && startsWithL cs ps

/-- Does the list start with the given pattern, case-insensitively? -/
def ciStartsWithL : List Char → List Char → Bool
  | _, [] => true
  | [], _ :: _ => false
  | c :: cs, p :: ps => ciEq c p && ciStartsWithL cs ps

/-- Substring containment, as Python `needle in haystack`. -/
def containsL (hay pat : List Char) : Bool :=
  match hay with
  | [] => startsWithL [] pat
  | _ :: t => startsWithL hay pat || containsL t pat

/-- Substring containment on strings (Python `in`). -/
def containsSub (hay pat : String) : Bool :=
  containsL hay.data pat.data

/-- Strip Python-whitespace from both ends (Python `str.strip`). -/
def stripL (s : List Char) : List Char :=
  ((s.dropWhile isPyWs).reverse.dropWhile isPyWs).reverse

def pyStrip (s : String) : String :=
  String.mk (stripL s.data)

/-- Maximal runs of characters not satisfying `p`; separator runs are dropped.
This models `re.split` on a one-character-class-plus pattern followed by the
strip-and-skip-empties treatment every caller applies. -/
def splitRunsGo (p : Char → Bool) (cur : List Char) : List Char → List (List Char)
  | [] => if cur.isEmpty then [] else [cur.reverse]
  | c :: cs =>
    if p c then
      if cur.isEmpty then splitRunsGo p [] cs
      else cur.reverse :: splitRunsGo p [] cs
    else splitRunsGo p (c :: cur) cs

def splitRuns (p : Char → Bool) (s : List Char) : List (List Char) :=
  splitRunsGo p [] s

/-- Join pieces with a separator (Python `sep.join`). -/
def joinWith (sep : String) : List String → String
  | [] => ""
  | [x] => x
  | x :: y :: t => x ++ sep ++ joinWith sep (y :: t)

/-- Association-list lookup keyed by string equality. -/
def lookupS {α : Type} : List (String × α) → String → Option α
  | [], _ => none
  | (k, v) :: t, key => if k = key then some v else lookupS t key

/-- Python dict assignment: update in place keeping position, else append. -/
def upsertS {α : Type} : List (String × α) → String → α → List (String × α)
  | [], k, v => [(k, v)]
  | (k2, v2) :: t, k, v =>
    if k2 = k then (k2, v) :: t else (k2, v2) :: upsertS t k v

/-- `infer_type_emoji` of both formatter files (their bodies are identical):
keyword containment checks, case-sensitive, first match wins. -/
def infer_type_emoji (raw_header : String) : String :=
  if containsSub raw_header "Daily" then "🔔"
  else if containsSub raw_header "Dropshipper" || containsSub raw_header "Dropshippers" then "🔥"
  else "🙂"

/-- The number piece shared by the price regexes: an optional currency
symbol, one or more digits, and an optional dot-digits fraction.
Returns the matched characters and the rest.  The greedy digit runs need
no backtracking because every following pattern piece starts with a
character the digit class excludes. -/
def numAttempt (s : List Char) : Option (List Char × List Char) :=
  let cur : List Char × List Char :=
    match s with
    | c :: t => if isCurrency c then ([c], t) else ([], s)
    | [] => ([], s)
  let ds := cur.2.takeWhile Char.isDigit
  let s2 := cur.2.dropWhile Char.isDigit
  if ds.isEmpty then none
  else
    match s2 with
    | '.' :: t =>
      let fs := t.takeWhile Char.isDigit
      if fs.isEmpty then some (cur.1 ++ ds, s2)
      else some ((cur.1 ++ ds ++ '.' :: fs), t.dropWhile Char.isDigit)
    | _ => some (cur.1 ++ ds, s2)

namespace ProductFormatter

/-- One price-and-shipping entry of `parse_prices` (a Python dict value). -/
structure PEntry where
  price : String
  shipping : String
deriving DecidableEq, Repr

/-- A whole word of exactly two or three ASCII letters with a word boundary
on each side, as matched (with backtracking) by the group of the
country-then-amount regex of `parse_prices`.  A three-letter run whose
follower is a word character rules the two-letter alternative out as well,
because the boundary after two letters would fall inside the run. -/
def alpha2or3 (s : List Char) : Option (List Char × List Char) :=
  match s with
  | a :: b :: c :: rest =>
    if a.isAlpha && b.isAlpha && c.isAlpha then
      if boundaryAfter rest then some ([a, b, c], rest) else none
    else if a.isAlpha && b.isAlpha && boundaryAfter (c :: rest) then some ([a, b], c :: rest)
    else none
  | [a, b] => if a.isAlpha && b.isAlpha then some ([a, b], []) else none
  | _ => none

/-- Attempt of format 1 of `parse_prices` at one position: a two-or-three
letter word, a gap free of currency symbols and digits, then a number.
Returns the upper-cased code and the price. -/
def m1At (prev : Option Char) (s : List Char) : Option (String × String) :=
  if boundaryBefore prev then
    match alpha2or3 s with
    | some (code, rest) =>
      let gap := rest.dropWhile (fun c => !(isCurrency c || c.isDigit))
      match numAttempt gap with
      | some (num, _) => some (String.mk (code.map Char.toUpper), String.mk num)
      | none => none
    | none => none
  else none

def m1Go : Nat → Option Char → List Char → Option (String × String)
  | 0, _, _ => none
  | _ + 1, prev, [] => m1At prev []
  | fuel + 1, prev, c :: cs =>
    match m1At prev (c :: cs) with
    | some r => some r
    | none => m1Go fuel (some c) cs

/-- Leftmost match of format 1 (the `re.search` of the first pattern). -/
def m1Search (s : List Char) : Option (String × String) :=
  m1Go (s.length + 1) none s

/-- Two or three letters, greedy, with no boundary requirement (the trailing
group of the amount-to-country regex). -/
def alphaUpTo3 (s : List Char) : Option (List Char) :=
  match s with
  | a :: b :: c :: _ =>
    if a.isAlpha && b.isAlpha && c.isAlpha then some [a, b, c]
    else if a.isAlpha && b.isAlpha then some [a, b]
    else none
  | [a, b] => if a.isAlpha && b.isAlpha then some [a, b] else none
  | _ => none

/-- Attempt of format 2 of `parse_prices` at one position (case-insensitive):
a number, optional whitespace, the word to, optional whitespace, then two
or three letters.  Returns the price and the upper-cased code. -/
def m2At (s : List Char) : Option (String × String) :=
  match numAttempt s with
  | some (num, rest) =>
    let r1 := rest.dropWhile isPyWs
    if ciStartsWithL r1 ['t', 'o'] then
      let r2 := (r1.drop 2).dropWhile isPyWs
      match alphaUpTo3 r2 with
      | some code => some (String.mk num, String.mk (code.map Char.toUpper))
      | none => none
    else none
  | none => none

def m2Go : Nat → List Char → Option (String × String)
  | 0, _ => none
  | _ + 1, [] => m2At []
  | fuel + 1, c :: cs =>
    match m2At (c :: cs) with
    | some r => some r
    | none => m2Go fuel cs

def m2Search (s : List Char) : Option (String × String) :=
  m2Go (s.length + 1) s

/-- Attempt of the shipping regex (case-insensitive): the word shipping,
optional whitespace, then a number. -/
def shipAt (s : List Char) : Option String :=
  if ciStartsWithL s ['s', 'h', 'i', 'p', 'p', 'i', 'n', 'g'] then
    let r := (s.drop 8).dropWhile isPyWs
    match numAttempt r with
    | some (num, _) => some (String.mk num)
    | none => none
  else none

def shipGo : Nat → List Char → Option String
  | 0, _ => none
  | _ + 1, [] => shipAt []
  | fuel + 1, c :: cs =>
    match shipAt (c :: cs) with
    | some r => some r
    | none => shipGo fuel cs

def shipSearch (s : List Char) : Option String :=
  shipGo (s.length + 1) s

/-- `parse_prices` of product_formatter.py: split the text on newlines,
commas and semicolons, then each part on slashes; per fragment try the
country-then-amount pattern, then the amount-to-country pattern; extract an
optional shipping amount; later fragments overwrite earlier ones for the
same code. -/
def parse_prices (text : String) : List (String × PEntry) :=
  (splitRuns (fun c => c = '\n' || c = ',' || c = ';') text.data).foldl
    (fun data part =>
      let part := stripL part
      if part.isEmpty then data else
      (splitRuns (fun c => c = '/') part).foldl
        (fun data sub =>
          let sub := stripL sub
          if sub.isEmpty then data else
          let found :=
            match m1Search sub with
            | some (code, price) => some (code, price)
            | none =>
              match m2Search sub with
              | some (price, code) => some (code, price)
              | none => none
          match found with
          | some (code, price) =>
            upsertS data code ⟨price, (shipSearch sub).getD "N/A"⟩
          | none => data)
        data)
    []

end ProductFormatter

/-- Attempt of the keyword regex at one position (case-insensitive): the
word Keyword, any characters other than a colon, a colon, optional
whitespace, then at least one character up to the end of the line.  The
greedy whitespace backtracks when everything after it is gone, which makes
the group start at the last non-newline whitespace character. -/
def lastNonNlSuffix (ws : List Char) : Option (List Char) :=
  match ws with
  | [] => none
  | c :: t =>
    match lastNonNlSuffix t with
    | some r => some r
    | none => if c ≠ '\n' then some ((c :: t).takeWhile (fun d => d ≠ '\n')) else none

def keywordAt (s : List Char) : Option (List Char) :=
  if ciStartsWithL s ['k', 'e', 'y', 'w', 'o', 'r', 'd'] then
    let rest := s.drop 7
    match rest.dropWhile (fun c => c ≠ ':') with
    | ':' :: after =>
      let rest2 := after.dropWhile isPyWs
      match rest2 with
      | _ :: _ => some (rest2.takeWhile (fun d => d ≠ '\n'))
      | [] => lastNonNlSuffix (after.takeWhile isPyWs)
    | _ => none
  else none

def keywordGo : Nat → List Char → Option (List Char)
  | 0, _ => none
  | _ + 1, [] => none
  | fuel + 1, c :: cs =>
    match keywordAt (c :: cs) with
    | some r => some r
    | none => keywordGo fuel cs

def keywordSearch (s : List Char) : Option (List Char) :=
  keywordGo (s.length + 1) s

/-- The substitution that deletes everything from the first (case-insensitive)
occurrence of Keyword to the end of the input. -/
def cutKeywordGo : Nat → List Char → List Char
  | 0, s => s
  | _ + 1, [] => []
  | fuel + 1, c :: cs =>
    if ciStartsWithL (c :: cs) ['k', 'e', 'y', 'w', 'o', 'r', 'd'] then []
    else c :: cutKeywordGo fuel cs

def cutKeyword (s : List Char) : List Char :=
  cutKeywordGo (s.length + 1) s

/-- Fixed-shape date attempt: four digits, a separator from `seps`, two
digits, a separator, two digits.  Returns the ten matched characters and
the rest. -/
def dateAt (seps : List Char) (s : List Char) : Option (List Char × List Char) :=
  match s with
  | a :: b :: c :: d :: s1 :: e :: f :: s2 :: g :: h :: rest =>
    if a.isDigit && b.isDigit && c.isDigit && d.isDigit && seps.contains s1 &&
       e.isDigit && f.isDigit && seps.contains s2 && g.isDigit && h.isDigit
    then some ([a, b, c, d, s1, e, f, s2, g, h], rest) else none
  | _ => none

def dateGo (seps : List Char) : Nat → List Char → Option (List Char)
  | 0, _ => none
  | _ + 1, [] => none
  | fuel + 1, c :: cs =>
    match dateAt seps (c :: cs) with
    | some (m, _) => some m
    | none => dateGo seps fuel cs

def dateSearch (seps : List Char) (s : List Char) : Option (List Char) :=
  dateGo seps (s.length + 1) s

/-- The date-removing substitution, which additionally requires word
boundaries around the match.  The last matched character is a digit, so
after a removal the previous character for boundary purposes is a word
character. -/
def dateSubGo (seps : List Char) : Nat → Option Char → List Char → List Char
  | 0, _, s => s
  | _ + 1, _, [] => []
  | fuel + 1, prev, c :: cs =>
    match (if boundaryBefore prev then dateAt seps (c :: cs) else none) with
    | some (_, rest) =>
      if boundaryAfter rest then dateSubGo seps fuel (some '0') rest
      else c :: dateSubGo seps fuel (some c) cs
    | none => c :: dateSubGo seps fuel (some c) cs

def dateSub (seps : List Char) (s : List Char) : List Char :=
  dateSubGo seps (s.length + 1) none s

namespace ProductFormatter

/-- Attempt of the first skip pattern of `remove_price_sections` at one
position (case-sensitive): the code as a whole word, a gap free of currency
symbols and digits, an optional currency symbol, then one digit. -/
def skip1At (code : List Char) (prev : Option Char) (s : List Char) : Bool :=
  boundaryBefore prev && startsWithL s code &&
    (let rest := s.drop code.length
     boundaryAfter rest &&
       (let gap := rest.dropWhile (fun c => !(isCurrency c || c.isDigit))
        match gap with
        | c :: t =>
          if isCurrency c then
            match t with
            | d :: _ => d.isDigit
            | [] => false
          else c.isDigit
        | [] => false))

def skip1Go (code : List Char) : Nat → Option Char → List Char → Bool
  | 0, _, _ => false
  | _ + 1, _, [] => false
  | fuel + 1, prev, c :: cs =>
    skip1At code prev (c :: cs) || skip1Go code fuel (some c) cs

def skip1Search (code : List Char) (s : List Char) : Bool :=
  skip1Go code (s.length + 1) none s

/-- Attempt of the second skip pattern (case-insensitive): a number, the
word to, then the code followed by a word boundary. -/
def skip2At (code : List Char) (s : List Char) : Bool :=
  match numAttempt s with
  | some (_, rest) =>
    let r1 := rest.dropWhile isPyWs
    ciStartsWithL r1 ['t', 'o'] &&
      (let r2 := (r1.drop 2).dropWhile isPyWs
       ciStartsWithL r2 code && boundaryAfter (r2.drop code.length))
  | none => false

def skip2Go (code : List Char) : Nat → List Char → Bool
  | 0, _ => false
  | _ + 1, [] => false
  | fuel + 1, c :: cs => skip2At code (c :: cs) || skip2Go code fuel cs

def skip2Search (code : List Char) (s : List Char) : Bool :=
  skip2Go code (s.length + 1) s

/-- `remove_price_sections` of product_formatter.py: drop every fragment in
which some extracted code occurs with a price, join the rest with spaces. -/
def remove_price_sections (text : String) (codes : List String) : String :=
  let parts := (splitRuns (fun c => c = '\n' || c = ',' || c = ';') text.data).filterMap
    (fun piece =>
      let p := stripL piece
      if p.isEmpty then none
      else if codes.any (fun code => skip1Search code.data p || skip2Search code.data p) then none
      else some (String.mk p))
  joinWith " " parts

/-- Attempt of the weight regex at one position (case-insensitive): the words
Gross Weight, an optional colon, whitespace, then the captured group of a
digits-and-dots run, whitespace and the letters kg. -/
def weightAt (s : List Char) : Option (List Char) :=
  if ciStartsWithL s ['g', 'r', 'o', 's', 's', ' ', 'w', 'e', 'i', 'g', 'h', 't'] then
    let r := s.drop 12
    let r := match r with | ':' :: t => t | _ => r
    let r2 := r.dropWhile isPyWs
    let run := r2.takeWhile isDigitOrDot
    if run.isEmpty then none
    else
      let r3 := r2.dropWhile isDigitOrDot
      let ws2 := r3.takeWhile isPyWs
      match r3.dropWhile isPyWs with
      | k :: g :: _ => if ciEq k 'k' && ciEq g 'g' then some (run ++ ws2 ++ [k, g]) else none
      | _ => none
  else none

def weightGo : Nat → List Char → Option (List Char)
  | 0, _ => none
  | _ + 1, [] => none
  | fuel + 1, c :: cs =>
    match weightAt (c :: cs) with
    | some r => some r
    | none => weightGo fuel cs

def weightSearch (s : List Char) : Option (List Char) :=
  weightGo (s.length + 1) s

end ProductFormatter

/-- Attempt of the shipping-time regex (case-sensitive): the literal To and a
space, two or three capital letters followed by a colon (greedy with
backtracking) and a space, a run of digits and hyphens, then the literal
word days, which belongs to the captured group. -/
def shipTimeStep (runC : Char → Bool) (code : List Char) (t : List Char) :
    Option ((String × String) × List Char) :=
  match t with
  | ' ' :: u =>
    let run := u.takeWhile runC
    if run.isEmpty then none
    else
      match u.dropWhile runC with
      | ' ' :: 'd' :: 'a' :: 'y' :: 's' :: v =>
        some ((String.mk code, String.mk (run ++ [' ', 'd', 'a', 'y', 's'])), v)
      | _ => none
  | _ => none

def shipTimeAt (runC : Char → Bool) (s : List Char) : Option ((String × String) × List Char) :=
  match s with
  | 'T' :: 'o' :: ' ' :: a :: b :: c :: rest3 =>
    if a.isUpper && b.isUpper then
      if c.isUpper then
        match rest3 with
        | ':' :: t => shipTimeStep runC [a, b, c] t
        | _ => none
      else if c = ':' then shipTimeStep runC [a, b] rest3
      else none
    else none
  | _ => none

def shipTimesGo (runC : Char → Bool) : Nat → List Char → List (String × String)
  | 0, _ => []
  | _ + 1, [] => []
  | fuel + 1, c :: cs =>
    match shipTimeAt runC (c :: cs) with
    | some (pair, rest) => pair :: shipTimesGo runC fuel rest
    | none => shipTimesGo runC fuel cs

/-- `parse_shipping` of product_formatter.py (findall then dict insertion);
its character class for the transit range holds digits and the hyphen. -/
def parse_shipping (text : String) : List (String × String) :=
  (shipTimesGo (fun c => c.isDigit || c = '-') (text.data.length + 1) text.data).foldl
    (fun ship cd => upsertS ship cd.1 cd.2) []

/-- Search for the first position where one of the given literal patterns
matches case-insensitively; the match extends to the end of the line. -/
def searchLineCiGo (pats : List (List Char)) : Nat → List Char → Option (List Char)
  | 0, _ => none
  | _ + 1, [] => none
  | fuel + 1, c :: cs =>
    if pats.any (fun p => ciStartsWithL (c :: cs) p) then
      some ((c :: cs).takeWhile (fun d => d ≠ '\n'))
    else searchLineCiGo pats fuel cs

def searchLineCi (pats : List (List Char)) (s : List Char) : Option (List Char) :=
  searchLineCiGo pats (s.length + 1) s

/-- Python `line.split(":", 1)[1]`: everything after the first colon, or an
IndexError when the line holds no colon. -/
def splitColonTail (line : List Char) : Except String (List Char) :=
  match line.dropWhile (fun c => c ≠ ':') with
  | ':' :: t => Except.ok t
  | _ => Except.error "IndexError: list index out of range"

/-- findall of the dollar-amount regex: a dollar sign followed by a run of
digits and dots. -/
def dollarNumsGo : Nat → List Char → List String
  | 0, _ => []
  | _ + 1, [] => []
  | fuel + 1, c :: cs =>
    if c = '$' then
      let run := cs.takeWhile isDigitOrDot
      if run.isEmpty then dollarNumsGo fuel cs
      else String.mk run :: dollarNumsGo fuel (cs.dropWhile isDigitOrDot)
    else dollarNumsGo fuel cs

def dollarNums (s : List Char) : List String :=
  dollarNumsGo (s.length + 1) s

/-- findall of the percentage regex: a run of digits and dots followed by a
percent sign. -/
def percentNumsGo : Nat → List Char → List String
  | 0, _ => []
  | _ + 1, [] => []
  | fuel + 1, c :: cs =>
    if isDigitOrDot c then
      let run := (c :: cs).takeWhile isDigitOrDot
      match (c :: cs).dropWhile isDigitOrDot with
      | '%' :: t => String.mk run :: percentNumsGo fuel t
      | _ => percentNumsGo fuel cs
    else percentNumsGo fuel cs

def percentNums (s : List Char) : List String :=
  percentNumsGo (s.length + 1) s

/-- The fixed display order with flag symbols, shared by both files. -/
def COUNTRY_ORDER : List (String × String) :=
  [("USA", "🇺🇸"), ("UK", "🇬🇧"), ("DE", "🇩🇪"), ("AU", "🇦🇺")]

/-- The Markdown template shared by both files, as a plain concatenation. -/
def TEMPLATE_MD (emoji name dateLine priceLines weight shipTimes metrics keyword : String) : String :=
  emoji ++ " **" ++ name ++ "**\n" ++ dateLine ++ "\n\n💰 **Precio (producto + envío)**\n" ++
  priceLines ++ "\n\n📦 **Logística**\n- Peso bruto: " ++ weight ++ "\n- Tránsito: " ++
  shipTimes ++ "\n\n" ++ metrics ++ "\n🔑 Keyword 1688: `" ++ keyword ++ "`"

/-- The transit summary (identical in both files): USA, EU and AU entries
joined with a dot, or a question mark when none exist. -/
def shipSummary (shipTimes : List (String × String)) : String :=
  let parts := ["USA", "EU", "AU"].filterMap (fun code =>
    match lookupS shipTimes code with
    | some days => some (code ++ " " ++ days)
    | none => none)
  if parts.isEmpty then "?" else joinWith " · " parts

/-- The optional metrics block (identical in both files). -/
def metricsSection (ordersLine rrp : String) : String :=
  let ls := (if ordersLine ≠ "" then ["- " ++ ordersLine] else []) ++
    (if rrp ≠ "" then ["- PVP recomendado: **" ++ rrp ++ "**"] else [])
  if ls.isEmpty then "" else "📊 **Métricas**\n" ++ joinWith "\n" ls ++ "\n\n"

namespace ProductFormatter

/-- Every value `format_description` computes before the categorization call
(its local variables, in source order). -/
structure Pre where
  emoji : String
  keyword : String
  dateLine : String
  priceInfo : List (String × PEntry)
  title : String
  weight : String
  shipTimes : List (String × String)
  ordersLine : String
  profits : List String
  margins : List String
  rrp : String
deriving DecidableEq, Repr

/-- The parsing phase of `format_description` (everything up to the MCP
call).  The two colon splits can raise IndexError. -/
def preParse (text : String) : Except String Pre := do
  let emoji := infer_type_emoji text
  let keyword :=
    match keywordSearch text.data with
    | some g => String.mk (stripL g)
    | none => ""
  let cleaned := cutKeyword text.data
  let dateLine :=
    match dateSearch ['/', '-'] cleaned with
    | some m => "*" ++ String.mk (m.map (fun c => if c = '/' then '-' else c)) ++ "*"
    | none => ""
  let cleaned := dateSub ['-', '/'] cleaned
  let priceInfo := parse_prices (String.mk cleaned)
  let title := pyStrip (remove_price_sections (String.mk cleaned) (priceInfo.map (fun kv => kv.1)))
  let weight :=
    match weightSearch cleaned with
    | some w => String.mk w
    | none => "? kg"
  let shipTimes := parse_shipping (String.mk cleaned)
  let ordersLine ←
    match searchLineCi [['o', 'r', 'd', 'e', 'r', 's'],
        ['u', 'n', 'i', 't', 's', ' ', 's', 'o', 'l', 'd']] cleaned with
    | some g0 => (splitColonTail g0).map (fun t => String.mk (stripL t))
    | none => pure ""
  let profits :=
    match searchLineCi [['p', 'r', 'o', 'f', 'i', 't', ' ', 'p', 'e', 'r', ' ', 'u', 'n', 'i', 't']] cleaned with
    | some g0 => dollarNums g0
    | none => []
  let margins :=
    match searchLineCi [['p', 'r', 'o', 'f', 'i', 't', ' ', 'm', 'a', 'r', 'g', 'i', 'n']] cleaned with
    | some g0 => percentNums g0
    | none => []
  let rrp ←
    match searchLineCi [("recommended retail price").data] cleaned with
    | some g0 => (splitColonTail g0).map (fun t => String.mk (stripL t))
    | none => pure ""
  pure ⟨emoji, keyword, dateLine, priceInfo, title, weight, shipTimes, ordersLine, profits, margins, rrp⟩

/-- The per-line profit and margin annotation of the price-line loop, with
the bound guards of product_formatter.py. -/
def mkExtra (idx : Nat) (profits margins : List String) : String :=
  if profits.isEmpty then ""
  else
    match profits.get? idx with
    | some pr =>
      " (💸 $" ++ pr ++
        (match (if margins.isEmpty then none else margins.get? idx) with
         | some mg => " • " ++ mg ++ "%)"
         | none => ")")
    | none => ""

def mkPriceLine (idx : Nat) (code flag : String) (e : PEntry) (profits margins : List String) : String :=
  "- " ++ flag ++ " " ++ code ++ ": **" ++ e.price ++ "**" ++ mkExtra idx profits margins

/-- The price-line loop of `format_description`: one line per country of the
fixed display order that has an extracted price. -/
def renderPriceLines (priceInfo : List (String × PEntry)) (profits margins : List String) : List String :=
  COUNTRY_ORDER.enum.filterMap (fun p =>
    match lookupS priceInfo p.2.1 with
    | some e => some (mkPriceLine p.1 p.2.1 p.2.2 e profits margins)
    | none => none)

/-- The rendering phase of `format_description` (everything after the MCP
call), which is a total function of the parsed values. -/
def renderFrom (p : Pre) : String :=
  TEMPLATE_MD p.emoji (if p.title = "" then "Product" else p.title) p.dateLine
    (joinWith "\n" (renderPriceLines p.priceInfo p.profits p.margins))
    p.weight (shipSummary p.shipTimes) (metricsSection p.ordersLine p.rrp) p.keyword

/-- Outcome of the HTTP categorization call of `call_mcp`: the requests
library can be missing, the post can raise, `raise_for_status` can raise on
a non-success response, or the call succeeds with a response body. -/
inductive McpEnv where
  | noRequests : McpEnv
  | netError (msg : String) : McpEnv
  | badStatus (msg : String) : McpEnv
  | ok (output : String) : McpEnv
deriving DecidableEq, Repr

def McpEnv.isFailure : McpEnv → Bool
  | .ok _ => false
  | _ => true

def backtickChar : Char := Char.ofNat 96

/-- Close of a fenced block: the minimal run of characters before three
backticks. -/
def findCloseGo : Nat → List Char → Option (List Char)
  | 0, _ => none
  | _ + 1, [] => none
  | fuel + 1, c :: cs =>
    if startsWithL (c :: cs) [backtickChar, backtickChar, backtickChar] then some []
    else (findCloseGo fuel cs).map (fun r => c :: r)

/-- Attempt of the fence regex of `clean_block`: three backticks, an optional
language token, a newline, then a lazily captured body up to three closing
backticks. -/
def fenceAt (s : List Char) : Option (List Char) :=
  if startsWithL s [backtickChar, backtickChar, backtickChar] then
    let r := s.drop 3
    let r2 := r.dropWhile (fun c => c.isAlphanum || c = '_' || c = '-')
    match r2 with
    | '\n' :: body => findCloseGo (body.length + 1) body
    | _ => none
  else none

def fenceGo : Nat → List Char → Option (List Char)
  | 0, _ => none
  | _ + 1, [] => none
  | fuel + 1, c :: cs =>
    match fenceAt (c :: cs) with
    | some r => some r
    | none => fenceGo fuel cs

/-- `clean_block` of product_formatter.py. -/
def clean_block (text : String) : String :=
  match fenceGo (text.data.length + 1) text.data with
  | some body => pyStrip (String.mk body)
  | none => pyStrip text

/-- `call_mcp` of product_formatter.py: on any failure, log once via the
side channel and return the sentinel; on success, unwrap the response.
Returns the result and the list of log entries (message, type). -/
def call_mcp (_prompt : String) (env : McpEnv) : String × List (String × String) :=
  match env with
  | .noRequests => ("Unknown", [("requests library missing for MCP call", "ERROR")])
  | .netError msg => ("Unknown", [("MCP error: " ++ msg, "ERROR")])
  | .badStatus msg => ("Unknown", [("MCP error: " ++ msg, "ERROR")])
  | .ok out => (clean_block out, [])

/-- The single log entry a failing call produces. -/
def mcpErrorLog : McpEnv → String × String
  | .noRequests => ("requests library missing for MCP call", "ERROR")
  | .netError msg => ("MCP error: " ++ msg, "ERROR")
  | .badStatus msg => ("MCP error: " ++ msg, "ERROR")
  | .ok _ => ("", "INFO")

/-- `format_description` of product_formatter.py: blank input short-circuits
to an empty result; otherwise parse, fire the categorization call (its
result is not bound by the source), and render.  The returned pair carries
the produced Markdown and the log entries of the run. -/
def format_description (text : String) (env : McpEnv) :
    Except String (String × List (String × String)) :=
  if pyStrip text = "" then Except.ok ("", [])
  else
    match preParse text with
    | Except.error e => Except.error e
    | Except.ok p =>
      let call := call_mcp ("Categorize this product title: " ++ p.title ++ ". Only return the category.") env
      Except.ok (renderFrom p, call.2)

end ProductFormatter

namespace GoshipproFormatter

/-- Attempt of the price regex of goshippro_formatter.py: a dollar sign, a
run of digits and dots, the literal word to with spaces, then exactly two
capital letters. -/
def priceReAt (s : List Char) : Option ((String × String) × List Char) :=
  match s with
  | '$' :: r =>
    let run := r.takeWhile isDigitOrDot
    if run.isEmpty then none
    else
      match r.dropWhile isDigitOrDot with
      | ' ' :: 't' :: 'o' :: ' ' :: a :: b :: rest =>
        if a.isUpper && b.isUpper then some ((String.mk run, String.mk [a, b]), rest) else none
      | _ => none
  | _ => none

def priceReGo : Nat → List Char → List (String × String)
  | 0, _ => []
  | _ + 1, [] => []
  | fuel + 1, c :: cs =>
    match priceReAt (c :: cs) with
    | some (pair, rest) => pair :: priceReGo fuel rest
    | none => priceReGo fuel cs

/-- `parse_prices` of goshippro_formatter.py: findall of the price regex,
then dict insertion keyed by the two-letter country. -/
def parse_prices (line : String) : List (String × String) :=
  (priceReGo (line.data.length + 1) line.data).foldl (fun d pc => upsertS d pc.2 pc.1) []

/-- `parse_shipping` of goshippro_formatter.py.  Its raw-string pattern
doubles the backslash, so the character class of the transit range holds
digits, the backslash and the hyphen. -/
def parse_shipping (line : String) : List (String × String) :=
  (shipTimesGo (fun c => c.isDigit || c = '\\' || c = '-') (line.data.length + 1) line.data).foldl
    (fun ship cd => upsertS ship cd.1 cd.2) []

/-- The mutable locals of the line loop of `parse_block`. -/
structure GState where
  prices : List (String × String)
  profits : List String
  margins : List String
  weight : String
  ordersLine : String
  rrp : String
  shipTimes : List (String × String)
  keyword : String
deriving DecidableEq, Repr

def initState : GState :=
  ⟨[], [], [], "? kg", "", "", [], ""⟩

/-- One iteration of the elif chain of `parse_block` (case-sensitive
containment and prefix tests, as in the source). -/
def stepLine (st : GState) (line : List Char) : Except String GState :=
  if containsL line ("Goshippro Price").data then
    Except.ok { st with prices := parse_prices (String.mk line) }
  else if startsWithL line ("Gross Weight").data then
    (splitColonTail line).map (fun t => { st with weight := String.mk (stripL t) })
  else if containsL line ("Orders").data || containsL line ("Units Sold").data then
    (splitColonTail line).map (fun t => { st with ordersLine := String.mk (stripL t) })
  else if startsWithL line ("Profit Per Unit").data then
    Except.ok { st with profits := dollarNums line }
  else if startsWithL line ("Profit Margin").data then
    Except.ok { st with margins := percentNums line }
  else if startsWithL line ("Recommended Retail Price").data then
    (splitColonTail line).map (fun t => { st with rrp := String.mk (stripL t) })
  else if startsWithL line ("To USA").data then
    Except.ok { st with shipTimes := parse_shipping (String.mk line) }
  else if startsWithL line ("Keyword").data then
    (splitColonTail line).map (fun t => { st with keyword := String.mk (stripL t) })
  else Except.ok st

/-- The price-line loop of `parse_block`: the profit and margin lists are
indexed by the position of the country in the fixed order without a bound
check, which raises IndexError when a list is nonempty but too short. -/
def renderPriceLinesG (st : GState) : Except String (List String) :=
  COUNTRY_ORDER.enum.foldlM (fun (acc : List String) p => do
    match lookupS st.prices p.2.1 with
    | some price =>
      let extra ←
        if st.profits.isEmpty then pure ""
        else do
          let pr ←
            match st.profits.get? p.1 with
            | some pr => pure pr
            | none => Except.error "IndexError: list index out of range"
          if st.margins.isEmpty then pure (" (💸 $" ++ pr ++ ")")
          else
            match st.margins.get? p.1 with
            | some mg => pure (" (💸 $" ++ pr ++ " • " ++ mg ++ "%)")
            | none => Except.error "IndexError: list index out of range"
      pure (acc ++ ["- " ++ p.2.2 ++ " " ++ p.2.1 ++ ": **$" ++ price ++ "**" ++ extra])
    | none => pure acc) []

/-- `parse_block` of goshippro_formatter.py. -/
def parse_block (raw : String) : Except String String := do
  let lines := ((splitRuns (fun c => c = '\n') raw.data).map stripL).filter
    (fun l => !l.isEmpty)
  match lines with
  | [] => pure ""
  | header :: body =>
    let emoji :=
      match header with
      | c :: _ =>
        if c = '🔔' || c = '🔥' || c = '🙂' then infer_type_emoji (String.mk [c])
        else infer_type_emoji (String.mk header)
      | [] => infer_type_emoji ""
    let name := String.mk (header.dropWhile (fun c => !c.isAlphanum))
    let dateLine :=
      match dateSearch ['/'] header with
      | some m => "*" ++ String.mk (m.map (fun c => if c = '/' then '-' else c)) ++ "*"
      | none => ""
    let st ← body.foldlM stepLine initState
    let priceLines ← renderPriceLinesG st
    pure (TEMPLATE_MD emoji (pyStrip name) dateLine (joinWith "\n" priceLines) st.weight
      (shipSummary st.shipTimes) (metricsSection st.ordersLine st.rrp) st.keyword)

end GoshipproFormatter

/-- Modelled from the spec: the thousands-separator formatter
(formatThousands) applied to numeric order counts is part of
channel_importer.py, a file of this repository that is referenced by its
tests but is not among the provided sources.  Per the spec it inserts comma
group separators every three digits from the right, preserves a trailing
plus marker if present, and returns input unchanged if it does not parse as
digits. -/
def insertCommasRev : Nat → List Char → List Char
  | _, [] => []
  | i, c :: cs =>
    if i > 0 && i % 3 = 0 then ',' :: c :: insertCommasRev (i + 1) cs
    else c :: insertCommasRev (i + 1) cs

def formatThousands (s : String) : String :=
  let hasPlus := s.data.getLast? = some '+'
  let core := if hasPlus then s.data.dropLast else s.data
  if !core.isEmpty && core.all Char.isDigit then
    String.mk (insertCommasRev 0 core.reverse).reverse ++ (if hasPlus then "+" else "")
  else s

end NightyMcp

instance {ε α : Type} [DecidableEq ε] [DecidableEq α] : DecidableEq (Except ε α) := fun a b =>
  match a, b with
  | .ok x, .ok y =>
    if h : x = y then isTrue (by rw [h]) else isFalse (fun hc => by cases hc; exact h rfl)
  | .error x, .error y =>
    if h : x = y then isTrue (by rw [h]) else isFalse (fun hc => by cases hc; exact h rfl)
  | .ok _, .error _ => isFalse (fun hc => by cases hc)
  | .error _, .ok _ => isFalse (fun hc => by cases hc)

namespace NightyMcp

/-- The end-to-end input block of the spec (claim C1). -/
def c1Input : String :=
  "🔥 Daily Dropshipper 2024/06/30\nGoshippro Price: $50 to USA, $40 to UK\nGross Weight: 1.2kg\nTo USA: 10-15 days\nKeyword: gadget"

/-- C1 (counterexample): on the end-to-end input the formatter chooses the
bell symbol for the block, not the fire symbol the claim states — the
header contains Daily, which is checked first. -/
theorem c1_fire_emoji_counterexample :
    (ProductFormatter.preParse c1Input).map ProductFormatter.Pre.emoji = Except.ok "🔔" ∧
    ("🔔" : String) ≠ "🔥" := by decide

/-- C1 (amended): on the end-to-end input the formatter renders a block
whose leading emoji is the bell symbol, a date line of 2024-06-30 between
asterisks, exactly two price lines (USA then UK, in that order), weight
1.2kg, transit summary USA 10-15 days, and the keyword gadget. -/
theorem c1_end_to_end_amended :
    (ProductFormatter.preParse c1Input).map (fun r =>
      (r.emoji, r.dateLine,
        ProductFormatter.renderPriceLines r.priceInfo r.profits r.margins,
        r.weight, shipSummary r.shipTimes, r.keyword)) =
    Except.ok ("🔔", "*2024-06-30*",
      ["- 🇺🇸 USA: **$50**", "- 🇬🇧 UK: **$40**"], "1.2kg", "USA 10-15 days", "gadget") := by
  decide

/-- C4: the country-price extractor of product_formatter.py maps the two
spec inputs to exactly the stated country-keyed amount and shipping
entries. -/
theorem c4_extract_country_prices :
    ProductFormatter.parse_prices "USA $99 shipping $10, UK £80 shipping £5" =
      [("USA", ⟨"$99", "$10"⟩), ("UK", ⟨"£80", "£5"⟩)] ∧
    ProductFormatter.parse_prices "$99 to USA / £80 to UK" =
      [("USA", ⟨"$99", "N/A"⟩), ("UK", ⟨"£80", "N/A"⟩)] := by decide

/-- C7 (counterexample): the extractor stores the fragment naming US under
the key US, and no entry appears under USA — there is no alias
normalization in parse_prices. -/
theorem c7_no_alias_counterexample :
    ProductFormatter.parse_prices "US $99 shipping $10" = [("US", ⟨"$99", "$10"⟩)] ∧
    lookupS (ProductFormatter.parse_prices "US $99 shipping $10") "USA" = none := by decide

/-- C7 (amended): country codes in the extracted mapping are the matched
tokens upper-cased with no alias normalization: US stays under US (not
USA) and GB stays under GB (not UK). -/
theorem c7_no_alias_amended :
    lookupS (ProductFormatter.parse_prices "US $99 shipping $10") "US" = some ⟨"$99", "$10"⟩ ∧
    lookupS (ProductFormatter.parse_prices "US $99 shipping $10") "USA" = none ∧
    lookupS (ProductFormatter.parse_prices "GB £80") "GB" = some ⟨"£80", "N/A"⟩ ∧
    lookupS (ProductFormatter.parse_prices "GB £80") "UK" = none := by decide

/-- C8: the thousands-separator formatter maps 2100 to 2,100, keeps the
trailing plus marker of 2100+, and returns non-numeric input unchanged. -/
theorem c8_format_thousands :
    formatThousands "2100" = "2,100" ∧ formatThousands "2100+" = "2,100+" ∧
    formatThousands "abc" = "abc" := by decide

/-- C10: on the fragment To USA colon 10-15 days, the country-then-amount
pattern binds the word To (upper-cased) as the country and the transit
digits as its price, so parse_prices returns a mapping whose only key is
TO with price 10 and shipping N/A. -/
theorem c10_to_usa_parse :
    ProductFormatter.parse_prices "To USA: 10-15 days" =
      [("TO", ⟨"10", "N/A"⟩)] := by decide

/-- C6: the code can abort the formatting of a whole block, contradicting
the degraded-field-by-field contract of the spec: an Orders line without a
colon makes format_description raise IndexError before the categorization
call; a Gross Weight line without a colon and a profit list shorter than a
rendered country index make parse_block raise IndexError. -/
theorem c6_extractor_crash :
    ProductFormatter.format_description "Orders 2100" ProductFormatter.McpEnv.noRequests =
      Except.error "IndexError: list index out of range" ∧
    GoshipproFormatter.parse_block "Pro Widget\nGross Weight 1.2kg" =
      Except.error "IndexError: list index out of range" ∧
    GoshipproFormatter.parse_block "T\nGoshippro Price: $50 to UK\nProfit Per Unit: $3" =
      Except.error "IndexError: list index out of range" := by decide

/-- C2: for every header text, containment of Daily forces the bell symbol
regardless of other content; Dropshipper or Dropshippers without Daily
forces the fire symbol; with neither the symbol is neutral.  The checks are
case-sensitive substring containments in that priority order. -/
theorem c2_emoji_priority (s : String) :
    (containsSub s "Daily" = true → infer_type_emoji s = "🔔") ∧
    (containsSub s "Daily" = false →
      (containsSub s "Dropshipper" = true ∨ containsSub s "Dropshippers" = true) →
      infer_type_emoji s = "🔥") ∧
    (containsSub s "Daily" = false → containsSub s "Dropshipper" = false →
      containsSub s "Dropshippers" = false → infer_type_emoji s = "🙂") := by
  refine ⟨fun h => by simp [infer_type_emoji, h], fun h1 h2 => ?_,
    fun h1 h2 h3 => by simp [infer_type_emoji, h1, h2, h3]⟩
  rcases h2 with h2 | h2 <;> simp [infer_type_emoji, h1, h2]

/-- Witness for C2 at concrete headers, one per branch. -/
theorem c2_emoji_priority_witness :
    infer_type_emoji "Daily Dropshipper" = "🔔" ∧
    infer_type_emoji "Dropshippers sale" = "🔥" ∧
    infer_type_emoji "plain header" = "🙂" :=
  ⟨(c2_emoji_priority "Daily Dropshipper").1 (by decide),
   (c2_emoji_priority "Dropshippers sale").2.1 (by decide) (Or.inl (by decide)),
   (c2_emoji_priority "plain header").2.2 (by decide) (by decide) (by decide)⟩

/-- C9: for every whitespace-only input, formatting returns the empty result
(and performs no categorization call) instead of raising. -/
theorem c9_blank_input (text : String) (env : ProductFormatter.McpEnv)
    (h : pyStrip text = "") :
    ProductFormatter.format_description text env = Except.ok ("", []) := by
  simp [ProductFormatter.format_description, h]

/-- Witness for C9 at a concrete whitespace-only block. -/
theorem c9_blank_input_witness :
    ProductFormatter.format_description "  \n\t " ProductFormatter.McpEnv.noRequests =
      Except.ok ("", []) :=
  c9_blank_input "  \n\t " ProductFormatter.McpEnv.noRequests (by decide)

/-- C5: for every input whose parsing phase succeeds, the rendered price
lines are exactly the fixed display order USA, UK, DE, AU filtered to the
countries with an extracted price (so the input order is irrelevant), and
every price line belongs to one of those four countries — a code outside
the set, such as EU, never yields a price line and can surface only through
the transit summary. -/
theorem c5_fixed_order_invariant (text : String)
    (hok : (ProductFormatter.preParse text).isOk = true) :
    ∃ r, ProductFormatter.preParse text = Except.ok r ∧
      ProductFormatter.renderPriceLines r.priceInfo r.profits r.margins =
        (COUNTRY_ORDER.enum.filter (fun p => (lookupS r.priceInfo p.2.1).isSome)).map
          (fun p => ProductFormatter.mkPriceLine p.1 p.2.1 p.2.2
            ((lookupS r.priceInfo p.2.1).getD ⟨"", ""⟩) r.profits r.margins) ∧
      ∀ line ∈ ProductFormatter.renderPriceLines r.priceInfo r.profits r.margins,
        ∃ p, p ∈ COUNTRY_ORDER.enum ∧ (lookupS r.priceInfo p.2.1).isSome = true ∧
          line = ProductFormatter.mkPriceLine p.1 p.2.1 p.2.2
            ((lookupS r.priceInfo p.2.1).getD ⟨"", ""⟩) r.profits r.margins := by
  have key : ∀ (pinfo : List (String × ProductFormatter.PEntry)) (profits margins : List String),
      ProductFormatter.renderPriceLines pinfo profits margins =
        (COUNTRY_ORDER.enum.filter (fun p => (lookupS pinfo p.2.1).isSome)).map
          (fun p => ProductFormatter.mkPriceLine p.1 p.2.1 p.2.2
            ((lookupS pinfo p.2.1).getD ⟨"", ""⟩) profits margins) := by
    intro pinfo profits margins
    unfold ProductFormatter.renderPriceLines COUNTRY_ORDER
    cases h1 : lookupS pinfo "USA" <;> cases h2 : lookupS pinfo "UK" <;>
      cases h3 : lookupS pinfo "DE" <;> cases h4 : lookupS pinfo "AU" <;>
      simp [List.enum, List.enumFrom, h1, h2, h3, h4]
  cases hpp : ProductFormatter.preParse text with
  | error e => rw [hpp] at hok; simp [Except.isOk, Except.toBool] at hok
  | ok r =>
    refine ⟨r, rfl, key r.priceInfo r.profits r.margins, ?_⟩
    intro line hline
    rw [key r.priceInfo r.profits r.margins] at hline
    obtain ⟨p, hp, hl⟩ := List.mem_map.mp hline
    exact ⟨p, (List.mem_filter.mp hp).1, (List.mem_filter.mp hp).2, hl.symm⟩

/-- Witness for C5 at a concrete input naming the countries out of order. -/
theorem c5_fixed_order_invariant_witness :
    ∃ r, ProductFormatter.preParse "AU $30, UK £80" = Except.ok r ∧
      ProductFormatter.renderPriceLines r.priceInfo r.profits r.margins =
        (COUNTRY_ORDER.enum.filter (fun p => (lookupS r.priceInfo p.2.1).isSome)).map
          (fun p => ProductFormatter.mkPriceLine p.1 p.2.1 p.2.2
            ((lookupS r.priceInfo p.2.1).getD ⟨"", ""⟩) r.profits r.margins) ∧
      ∀ line ∈ ProductFormatter.renderPriceLines r.priceInfo r.profits r.margins,
        ∃ p, p ∈ COUNTRY_ORDER.enum ∧ (lookupS r.priceInfo p.2.1).isSome = true ∧
          line = ProductFormatter.mkPriceLine p.1 p.2.1 p.2.2
            ((lookupS r.priceInfo p.2.1).getD ⟨"", ""⟩) r.profits r.margins :=
  c5_fixed_order_invariant "AU $30, UK £80" (by decide)

/-- The rendered template always holds at least the literal bones of the
Markdown skeleton, so rendering never yields the empty string. -/
theorem renderFrom_ne_empty (p : ProductFormatter.Pre) :
    ProductFormatter.renderFrom p ≠ "" := by
  intro h
  have h2 : (ProductFormatter.renderFrom p).data = [] := by rw [h]
  simp [ProductFormatter.renderFrom, TEMPLATE_MD, String.data_append] at h2

/-- C3: for every input text on which the parsing phase succeeds and every
failing categorization outcome, the run still returns a rendered result,
that result is non-empty, exactly one log entry is produced and it is an
error entry, the categorizer itself returns the sentinel Unknown, and the
rendered output is the same as under any other categorization outcome —
the categorizer cannot leak its sentinel into the output. -/
theorem c3_mcp_failure_contract (text : String) (env : ProductFormatter.McpEnv)
    (hfail : env.isFailure = true) (hnb : pyStrip text ≠ "")
    (hok : (ProductFormatter.preParse text).isOk = true) :
    ∃ r, ProductFormatter.preParse text = Except.ok r ∧
      ProductFormatter.format_description text env =
        Except.ok (ProductFormatter.renderFrom r, [ProductFormatter.mcpErrorLog env]) ∧
      ProductFormatter.renderFrom r ≠ "" ∧
      (ProductFormatter.mcpErrorLog env).2 = "ERROR" ∧
      (ProductFormatter.call_mcp
        ("Categorize this product title: " ++ r.title ++ ". Only return the category.") env).1 =
        "Unknown" ∧
      ∀ env2, ProductFormatter.format_description text env2 =
        Except.ok (ProductFormatter.renderFrom r,
          (ProductFormatter.call_mcp
            ("Categorize this product title: " ++ r.title ++ ". Only return the category.")
            env2).2) := by
  cases hpp : ProductFormatter.preParse text with
  | error e => rw [hpp] at hok; simp [Except.isOk, Except.toBool] at hok
  | ok r =>
    refine ⟨r, rfl, ?_, renderFrom_ne_empty r, ?_, ?_, ?_⟩
    · cases env <;>
        simp_all [ProductFormatter.format_description, ProductFormatter.call_mcp,
          ProductFormatter.mcpErrorLog, ProductFormatter.McpEnv.isFailure]
    · cases env <;> simp_all [ProductFormatter.mcpErrorLog, ProductFormatter.McpEnv.isFailure]
    · cases env <;> simp_all [ProductFormatter.call_mcp, ProductFormatter.McpEnv.isFailure]
    · intro env2
      simp [ProductFormatter.format_description, hnb, hpp]

/-- Witness for C3 at the input of the repository test suite and a simulated
network exception. -/
theorem c3_mcp_failure_contract_witness :
    ∃ r, ProductFormatter.preParse "USA $5" = Except.ok r ∧
      ProductFormatter.format_description "USA $5" (ProductFormatter.McpEnv.netError "fail") =
        Except.ok (ProductFormatter.renderFrom r,
          [ProductFormatter.mcpErrorLog (ProductFormatter.McpEnv.netError "fail")]) ∧
      ProductFormatter.renderFrom r ≠ "" ∧
      (ProductFormatter.mcpErrorLog (ProductFormatter.McpEnv.netError "fail")).2 = "ERROR" ∧
      (ProductFormatter.call_mcp
        ("Categorize this product title: " ++ r.title ++ ". Only return the category.")
        (ProductFormatter.McpEnv.netError "fail")).1 = "Unknown" ∧
      ∀ env2, ProductFormatter.format_description "USA $5" env2 =
        Except.ok (ProductFormatter.renderFrom r,
          (ProductFormatter.call_mcp
            ("Categorize this product title: " ++ r.title ++ ". Only return the category.")
            env2).2) :=
  c3_mcp_failure_contract "USA $5" (ProductFormatter.McpEnv.netError "fail")
    (by decide) (by decide) (by decide)

end NightyMcp
